import Mathlib

/- Shallow embedding of the miniapp_api backend (src/app.py, src/db.py,
   src/quest_generator.py).  Python strings are modelled as lists of
   characters, SQLite tables as lists of row records, and each database or
   HTTP operation as a pure function from the relevant table states to the
   new table states together with the returned value.  Randomness in the
   quest generator is modelled as an oracle stream of index choices, and
   HTTP errors as their numeric status codes. -/

namespace MiniApp

/- Python str values are modelled as lists of characters. -/
abbrev Str := List Char

def isspace (c : Char) : Bool := c.isWhitespace

/- Python str.lstrip() -/
def lstrip (s : Str) : Str := s.dropWhile isspace

/- Python str.rstrip() -/
def rstrip (s : Str) : Str := (s.reverse.dropWhile isspace).reverse

/- Python str.strip() -/
def strip (s : Str) : Str := rstrip (lstrip s)

/- Python text.split(sep) for a single-character separator. -/
def split_char (sep : Char) : Str → List Str
  | [] => [[]]
  | c :: cs =>
    if c = sep then [] :: split_char sep cs
    else
      match split_char sep cs with
      | [] => [[c]]
      | w :: ws => (c :: w) :: ws

/- Python str.replace(pat, rep), replacing every non-overlapping occurrence
   left to right; the fuel argument (instantiated with the length of the
   string) makes the recursion structural. -/
def replace_all_fuel (pat rep : Str) : Nat → Str → Str
  | 0, s => s
  | _ + 1, [] => []
  | fuel + 1, c :: cs =>
    if pat ≠ [] ∧ pat.isPrefixOf (c :: cs) then
      rep ++ replace_all_fuel pat rep fuel ((c :: cs).drop pat.length)
    else
      c :: replace_all_fuel pat rep fuel cs

def replace_all (pat rep s : Str) : Str := replace_all_fuel pat rep s.length s

/- ==================== quest_generator.py ==================== -/

/- One entry of the hellmode section of quests.json: a slug, a display name
   and an optional bonus (item.get(bonus, 0) is modelled by storing the
   default directly). -/
structure CatalogItem where
  slug : Str
  name : Str
  bonus : Int
deriving DecidableEq

/- The hellmode section of the quest catalog (load_quests_config result). -/
structure HellmodeConfig where
  map : List CatalogItem
  emote : List CatalogItem
  class_items : List CatalogItem
  gear : List CatalogItem

/- A generated quest (quest_generator.generate_random_quest result). -/
structure HMQuest where
  map_slug : Str
  map_name : Str
  emote_slug : Str
  emote_name : Str
  class_slug : Str
  class_name : Str
  gear_slug : Str
  gear_name : Str
  reward : Int
deriving DecidableEq

def BASE_REWARD : Int := 350

def MAX_ATTEMPTS : Nat := 10

/- One outcome of the four random.choice calls inside generate_random_quest,
   given as indices into the four catalogs. -/
structure RandomChoice where
  map_idx : Nat
  emote_idx : Nat
  class_idx : Nat
  gear_idx : Nat

/- quest_generator.generate_random_quest: picks the chosen item from each
   catalog and computes reward = BASE_REWARD + map, class and gear bonuses
   (the emote bonus is not added, as in the source).  random.choice on an
   empty catalog raises, modelled as none. -/
def generate_random_quest (cfg : HellmodeConfig) (c : RandomChoice) : Option HMQuest := do
  let map_item ← cfg.map.get? c.map_idx
  let emote_item ← cfg.emote.get? c.emote_idx
  let class_item ← cfg.class_items.get? c.class_idx
  let gear_item ← cfg.gear.get? c.gear_idx
  some
    { map_slug := map_item.slug
      map_name := map_item.name
      emote_slug := emote_item.slug
      emote_name := emote_item.name
      class_slug := class_item.slug
      class_name := class_item.name
      gear_slug := gear_item.slug
      gear_name := gear_item.name
      reward := BASE_REWARD + map_item.bonus + class_item.bonus + gear_item.bonus }

/- quest_generator.has_duplicates: true when any of the four slugs of the
   new quest equals the corresponding slug of any non-None current quest. -/
def has_duplicates (new_quest : HMQuest) (current_quests : List (Option HMQuest)) : Bool :=
  current_quests.any fun cq =>
    match cq with
    | none => false
    | some q =>
      new_quest.map_slug == q.map_slug || new_quest.emote_slug == q.emote_slug ||
      new_quest.class_slug == q.class_slug || new_quest.gear_slug == q.gear_slug

/- The retry loop of quest_generator.main: attempt indices i, i+1, ... draw
   successive candidates from the oracle; a candidate without duplicates is
   accepted; when the fuel (MAX_ATTEMPTS) is exhausted one further fresh
   candidate is drawn after the loop and accepted without any check. -/
def quest_attempts (cfg : HellmodeConfig) (draws : Nat → RandomChoice)
    (current_quests : List (Option HMQuest)) : Nat → Nat → Option HMQuest
  | i, 0 => generate_random_quest cfg (draws i)
  | i, fuel + 1 =>
    match generate_random_quest cfg (draws i) with
    | none => none
    | some generated =>
      if has_duplicates generated current_quests then
        quest_attempts cfg draws current_quests (i + 1) fuel
      else
        some generated

/- The weekly-quest generation step of quest_generator.main, checked against
   the current weekly and additional quests. -/
def main_weekly_quest (cfg : HellmodeConfig) (draws : Nat → RandomChoice)
    (current_weekly_quest current_additional_quest : Option HMQuest) : Option HMQuest :=
  quest_attempts cfg draws [current_weekly_quest, current_additional_quest] 0 MAX_ATTEMPTS

/- ==================== db.py: quests_done table ==================== -/

/- A row of the quests_done table: the four weekly completion flags are
   stored as 0/1 integers in SQLite and modelled as Bool, all_completed is
   the streak counter, first_completed_at the optional timestamp. -/
structure QuestRow where
  user_id : Nat
  psn_id : Str
  hellmode : Bool
  story : Bool
  survival : Bool
  trials : Bool
  all_completed : Nat
  first_completed_at : Option Nat
deriving DecidableEq

/- The 0/1 integer value a completion flag holds in the database. -/
def b2n (b : Bool) : Nat := if b then 1 else 0

/- The sum hellmode + story + survival + trials computed by the source. -/
def completed_sum (r : QuestRow) : Nat :=
  b2n r.hellmode + b2n r.story + b2n r.survival + b2n r.trials

/- SELECT ... FROM quests_done WHERE user_id = ? -/
def find_quest_row (table : List QuestRow) (user_id : Nat) : Option QuestRow :=
  table.find? fun r => r.user_id == user_id

/- INSERT OR REPLACE INTO quests_done keyed on user_id. -/
def upsert_quest_row (table : List QuestRow) (row : QuestRow) : List QuestRow :=
  if table.any (fun r => r.user_id == row.user_id) then
    table.map fun r => if r.user_id == row.user_id then row else r
  else
    table ++ [row]

def valid_quest_types : List Str :=
  [("hellmode".data), ("story".data), ("survival".data), ("trials".data)]

/- The if/elif chain of mark_quest_done that sets the requested flag to 1. -/
def set_quest_flag (quest_type : Str) (h s sv t : Bool) : Bool × Bool × Bool × Bool :=
  if quest_type = ("hellmode".data) then (true, s, sv, t)
  else if quest_type = ("story".data) then (h, true, sv, t)
  else if quest_type = ("survival".data) then (h, s, true, t)
  else if quest_type = ("trials".data) then (h, s, sv, true)
  else (h, s, sv, t)

/- Reads the flag of quest_type from a row (used to state the theorems). -/
def get_quest_flag (r : QuestRow) (quest_type : Str) : Bool :=
  if quest_type = ("hellmode".data) then r.hellmode
  else if quest_type = ("story".data) then r.story
  else if quest_type = ("survival".data) then r.survival
  else if quest_type = ("trials".data) then r.trials
  else false

/- Result of db.mark_quest_done: the new table, the returned bool, and
   whether add_trophy(user_id, week-hero) was invoked. -/
structure MarkResult where
  table : List QuestRow
  ok : Bool
  granted_week_hero : Bool
deriving DecidableEq

/- db.mark_quest_done: marks quest_type done for user_id, increments
   all_completed when the update turns the flag sum from below 4 into 4,
   stamps first_completed_at when all_completed first becomes 1, and grants
   the week-hero trophy when all_completed reaches 5. -/
def mark_quest_done (table : List QuestRow) (user_id : Nat) (psn_id : Str)
    (quest_type : Str) (now : Nat) : MarkResult :=
  if valid_quest_types.contains quest_type = false then
    ⟨table, false, false⟩
  else
    let state :=
      match find_quest_row table user_id with
      | some r => (r.hellmode, r.story, r.survival, r.trials, r.all_completed, r.first_completed_at)
      | none => (false, false, false, false, 0, none)
    match state with
    | (hellmode, story, survival, trials, all_completed, first_completed_at) =>
      let sum_before := b2n hellmode + b2n story + b2n survival + b2n trials
      match set_quest_flag quest_type hellmode story survival trials with
      | (hellmode, story, survival, trials) =>
        let sum_after := b2n hellmode + b2n story + b2n survival + b2n trials
        if sum_after = 4 ∧ sum_before < 4 then
          let all_completed := all_completed + 1
          let first_completed_at := if all_completed = 1 then some now else first_completed_at
          let granted := all_completed == 5
          let row : QuestRow :=
            ⟨user_id, psn_id, hellmode, story, survival, trials, all_completed, first_completed_at⟩
          ⟨upsert_quest_row table row, true, granted⟩
        else
          let row : QuestRow :=
            ⟨user_id, psn_id, hellmode, story, survival, trials, all_completed, first_completed_at⟩
          ⟨upsert_quest_row table row, true, false⟩

/- The row state mark_quest_done reads for a user: the stored row, or the
   all-zero default the source substitutes when no row exists. -/
def quest_row_state (table : List QuestRow) (user_id : Nat) (psn_id : Str) : QuestRow :=
  match find_quest_row table user_id with
  | some r => r
  | none => ⟨user_id, psn_id, false, false, false, false, 0, none⟩

/- The flag sum after mark_quest_done sets the requested flag. -/
def sum_after_mark (r0 : QuestRow) (quest_type : Str) : Nat :=
  let f := set_quest_flag quest_type r0.hellmode r0.story r0.survival r0.trials
  b2n f.1 + b2n f.2.1 + b2n f.2.2.1 + b2n f.2.2.2

/- The row mark_quest_done writes back for the read state r0. -/
def mark_written_row (r0 : QuestRow) (user_id : Nat) (psn_id : Str) (quest_type : Str)
    (now : Nat) : QuestRow :=
  let f := set_quest_flag quest_type r0.hellmode r0.story r0.survival r0.trials
  if b2n f.1 + b2n f.2.1 + b2n f.2.2.1 + b2n f.2.2.2 = 4 ∧ completed_sum r0 < 4 then
    ⟨user_id, psn_id, f.1, f.2.1, f.2.2.1, f.2.2.2, r0.all_completed + 1,
     if r0.all_completed + 1 = 1 then some now else r0.first_completed_at⟩
  else
    ⟨user_id, psn_id, f.1, f.2.1, f.2.2.1, f.2.2.2, r0.all_completed,
     r0.first_completed_at⟩

/- Whether mark_quest_done grants the week-hero trophy for read state r0. -/
def mark_granted (r0 : QuestRow) (quest_type : Str) : Bool :=
  let f := set_quest_flag quest_type r0.hellmode r0.story r0.survival r0.trials
  if b2n f.1 + b2n f.2.1 + b2n f.2.2.1 + b2n f.2.2.2 = 4 ∧ completed_sum r0 < 4 then
    r0.all_completed + 1 == 5
  else false

/- db.reset_weekly_quests: per row, keep the row with the four flags zeroed
   when all_completed > 0 and all four flags were set; delete it otherwise. -/
def reset_weekly_quests (table : List QuestRow) : List QuestRow :=
  table.filterMap fun r =>
    let completed_count := completed_sum r
    if r.all_completed > 0 then
      if completed_count = 4 then
        some { r with hellmode := false, story := false, survival := false, trials := false }
      else
        none
    else
      none

/- ==================== db.py: users table / profile ==================== -/

/- db.parse_comma_separated_list: split on commas, strip each item, drop
   empty items; a falsy (empty) string parses to the empty list. -/
def parse_comma_separated_list (text : Str) : List Str :=
  if text = [] then []
  else ((split_char ',' text).map strip).filter fun item => item ≠ []

/- db.join_comma_separated_list, i.e. a comma join of the items. -/
def join_comma_separated_list : List Str → Str
  | [] => []
  | [x] => x
  | x :: y :: rest => x ++ ',' :: join_comma_separated_list (y :: rest)

/- A row of the users table (the columns read by get_user). -/
structure UserRow where
  user_id : Nat
  real_name : Str
  psn_id : Str
  platforms : Str
  modes : Str
  goals : Str
  difficulties : Str
  avatar_url : Option Str
  balance : Int
deriving DecidableEq

/- The profile_data dict passed from app.save_profile to db.upsert_user
   (avatar_url and birthday are absent there, hence Option). -/
structure ProfileData where
  real_name : Str
  psn_id : Str
  platforms : List Str
  modes : List Str
  goals : List Str
  difficulties : List Str
  avatar_url : Option Str
  birthday : Option Str
deriving DecidableEq

/- db.upsert_user restricted to its effect on the users table: lists are
   comma-joined, an existing row is updated (keeping avatar_url when none is
   passed), a missing row is inserted.  The bookkeeping writes to the
   mastery, trophies, birthdays, notifications, recent_events and builds
   tables performed by the source only touch those other tables and are not
   modelled here. -/
def upsert_user (users : List UserRow) (user_id : Nat) (profile_data : ProfileData) :
    List UserRow :=
  let platforms_str := join_comma_separated_list profile_data.platforms
  let modes_str := join_comma_separated_list profile_data.modes
  let goals_str := join_comma_separated_list profile_data.goals
  let difficulties_str := join_comma_separated_list profile_data.difficulties
  if users.any (fun u => u.user_id == user_id) then
    users.map fun u =>
      if u.user_id == user_id then
        { u with
          real_name := profile_data.real_name
          psn_id := profile_data.psn_id
          platforms := platforms_str
          modes := modes_str
          goals := goals_str
          difficulties := difficulties_str
          avatar_url :=
            match profile_data.avatar_url with
            | some a => some a
            | none => u.avatar_url }
      else u
  else
    users ++ [⟨user_id, profile_data.real_name, profile_data.psn_id, platforms_str,
               modes_str, goals_str, difficulties_str, profile_data.avatar_url, 0⟩]

/- The profile dict db.get_user builds from a users row (the birthday field
   comes from a separate table and is not modelled). -/
structure Profile where
  user_id : Nat
  real_name : Str
  psn_id : Str
  platforms : List Str
  modes : List Str
  goals : List Str
  difficulties : List Str
  avatar_url : Option Str
  balance : Int
deriving DecidableEq

/- db.get_user: look the row up by user_id and parse the list columns. -/
def get_user (users : List UserRow) (user_id : Nat) : Option Profile :=
  match users.find? (fun u => u.user_id == user_id) with
  | none => none
  | some u =>
    some ⟨u.user_id, u.real_name, u.psn_id,
          parse_comma_separated_list u.platforms,
          parse_comma_separated_list u.modes,
          parse_comma_separated_list u.goals,
          parse_comma_separated_list u.difficulties,
          u.avatar_url, u.balance⟩

/- app.validate_psn_format: the regex match of 3 to 16 characters drawn
   from A-Z, a-z, 0-9, hyphen and underscore; a falsy string fails, and a
   single trailing newline is tolerated because re.match anchors the dollar
   before it. -/
def validate_psn_format (psn : Str) : Bool :=
  if psn = [] then false
  else
    let core := if psn.getLast? = some '\n' then psn.dropLast else psn
    decide (3 ≤ core.length) && decide (core.length ≤ 16) &&
      core.all fun ch => ch.isAlphanum || ch == '-' || ch == '_'

/- app.save_profile: validate real_name and psn_id, then upsert the profile
   with the stripped name and PSN id; errors are the raised HTTP codes. -/
def save_profile (users : List UserRow) (user_id : Nat) (real_name psn_id : Str)
    (platforms modes goals difficulties : List Str) : Except Nat (List UserRow) :=
  if strip real_name = [] then .error 400
  else if validate_psn_format psn_id = false then .error 400
  else
    let profile_data : ProfileData :=
      ⟨strip real_name, strip psn_id, platforms, modes, goals, difficulties, none, none⟩
    .ok (upsert_user users user_id profile_data)

/- ==================== app.py: authentication ==================== -/

/- app.verify_bot_authorization: a missing or falsy (empty) Authorization
   header fails; otherwise every occurrence of the text Bearer-blank is
   removed, the result is stripped, and compared with the bot token. -/
def verify_bot_authorization (bot_token : Str) (authorization : Option Str) : Bool :=
  match authorization with
  | none => false
  | some a =>
    if a = [] then false
    else strip (replace_all ("Bearer ".data) [] a) == bot_token

/- The bot-token acceptance predicate in the words of the claim: the
   Authorization header, after stripping one optional Bearer-blank prefix,
   equals the bot token.  Stated only to be compared with the source
   function verify_bot_authorization. -/
def claimed_bot_token_check (bot_token : Str) (a : Str) : Bool :=
  (if ("Bearer ".data).isPrefixOf a then a.drop (("Bearer ".data).length) else a) == bot_token

/- app.get_current_user: reject with 401 when the X-Telegram-Init-Data
   header is missing or falsy, when validation returns nothing, or when no
   truthy user id can be extracted.  validate_init_data and
   get_user_id_from_init_data live in security.py, which is not part of the
   sources; they are taken as parameters of arbitrary behaviour. -/
def get_current_user {α : Type} (validate_init_data : Str → Option α)
    (get_user_id_from_init_data : α → Option Nat)
    (x_telegram_init_data : Option Str) : Except Nat Nat :=
  match x_telegram_init_data with
  | none => .error 401
  | some h =>
    if h = [] then .error 401
    else
      match validate_init_data h with
      | none => .error 401
      | some init_data =>
        match get_user_id_from_init_data init_data with
        | none => .error 401
        | some user_id => if user_id = 0 then .error 401 else .ok user_id

/- ==================== db.py / app.py: mastery ==================== -/

def MASTERY_CATEGORIES : List Str :=
  [("solo".data), ("hellmode".data), ("raid".data), ("speedrun".data), ("glitch".data)]

/- A row of the mastery table. -/
structure MasteryRow where
  user_id : Nat
  psn_id : Option Str
  solo : Nat
  hellmode : Nat
  raid : Nat
  speedrun : Nat
  glitch : Nat
deriving DecidableEq

/- The category column of a mastery row; an unknown key reads as the dict
   default 0 used by mastery_data.get(category_key, 0). -/
def mastery_level (r : MasteryRow) (category : Str) : Nat :=
  if category = ("solo".data) then r.solo
  else if category = ("hellmode".data) then r.hellmode
  else if category = ("raid".data) then r.raid
  else if category = ("speedrun".data) then r.speedrun
  else if category = ("glitch".data) then r.glitch
  else 0

/- Writes level into the category column of a row. -/
def set_mastery_row (r : MasteryRow) (category : Str) (level : Nat) : MasteryRow :=
  if category = ("solo".data) then { r with solo := level }
  else if category = ("hellmode".data) then { r with hellmode := level }
  else if category = ("raid".data) then { r with raid := level }
  else if category = ("speedrun".data) then { r with speedrun := level }
  else if category = ("glitch".data) then { r with glitch := level }
  else r

/- db.get_mastery: all categories read 0 when the user has no row. -/
def get_mastery (table : List MasteryRow) (user_id : Nat) (category : Str) : Nat :=
  match table.find? (fun r => r.user_id == user_id) with
  | none => 0
  | some r => mastery_level r category

/- db.set_mastery: an unknown category returns False (none); otherwise an
   existing row is updated, writing the level columns computed from the
   first matching row into every matching row, or a fresh row is inserted
   with the psn_id looked up in the users table (falsy values become NULL). -/
def set_mastery (users : List UserRow) (table : List MasteryRow) (user_id : Nat)
    (category : Str) (level : Nat) : Option (List MasteryRow) :=
  if MASTERY_CATEGORIES.contains category = false then none
  else if table.any (fun r => r.user_id == user_id) then
    let current := (table.find? (fun r => r.user_id == user_id)).getD
      ⟨user_id, none, 0, 0, 0, 0, 0⟩
    let v := set_mastery_row current category level
    some (table.map fun r =>
      if r.user_id == user_id then
        { r with solo := v.solo, hellmode := v.hellmode, raid := v.raid,
                 speedrun := v.speedrun, glitch := v.glitch }
      else r)
  else
    let psn_id :=
      match users.find? (fun u => u.user_id == user_id) with
      | some u => if u.psn_id ≠ [] then some u.psn_id else none
      | none => none
    some (table ++ [set_mastery_row ⟨user_id, psn_id, 0, 0, 0, 0, 0⟩ category level])

/- One category of mastery-config.json: its key and its maxLevels value
   (category.get(maxLevels, 0) is modelled by storing the default). -/
structure MasteryConfigCategory where
  key : Str
  maxLevels : Nat
deriving DecidableEq

/- The mastery config as loaded by load_mastery_config. -/
structure MasteryConfig where
  categories : List MasteryConfigCategory

/- mastery_utils.find_category_by_key. -/
def find_category_by_key (config : MasteryConfig) (category_key : Str) :
    Option MasteryConfigCategory :=
  config.categories.find? fun c => c.key == category_key

/- Result of app.approve_mastery_application up to and including the trophy
   grant: the raised HTTP status (none when the level update and the grant
   decision completed), the mastery table afterwards, and whether
   add_trophy(user_id, category_key) was invoked.  The later notification
   steps of the handler do not touch the mastery table. -/
structure ApproveResult where
  status : Option Nat
  mastery : List MasteryRow
  granted_trophy : Bool
deriving DecidableEq

/- app.approve_mastery_application: bot auth, the linear level check
   current + 1 == next_level, the column update via set_mastery, and the
   conditional trophy grant at new_level >= maxLevels > 0. -/
def approve_mastery_application (bot_token : Str) (authorization : Option Str)
    (config : MasteryConfig) (users : List UserRow) (mastery : List MasteryRow)
    (user_id : Nat) (category_key : Str) (next_level : Nat) : ApproveResult :=
  if verify_bot_authorization bot_token authorization = false then
    ⟨some 401, mastery, false⟩
  else
    let current_level := get_mastery mastery user_id category_key
    let expected_next_level := current_level + 1
    if next_level ≠ expected_next_level then ⟨some 400, mastery, false⟩
    else
      match find_category_by_key config category_key with
      | none => ⟨some 400, mastery, false⟩
      | some category =>
        let new_level := current_level + 1
        match set_mastery users mastery user_id category_key new_level with
        | none => ⟨some 500, mastery, false⟩
        | some updated =>
          let max_levels := category.maxLevels
          if new_level ≥ max_levels ∧ max_levels > 0 then ⟨none, updated, true⟩
          else ⟨none, updated, false⟩

/- ==================== db.py / app.py: builds ==================== -/

/- A row of the builds table (the columns the verified operations touch). -/
structure BuildRow where
  build_id : Nat
  user_id : Nat
  author : Str
  is_public : Nat
deriving DecidableEq

/- db.update_build_visibility: UPDATE builds SET is_public WHERE build_id
   AND user_id, returning rowcount > 0. -/
def update_build_visibility (builds : List BuildRow) (build_id user_id : Nat)
    (is_public : Nat) : List BuildRow × Bool :=
  (builds.map fun r =>
     if r.build_id == build_id && r.user_id == user_id then { r with is_public := is_public }
     else r,
   builds.any fun r => r.build_id == build_id && r.user_id == user_id)

/- app.toggle_build_publish: validate is_public, call the update, raise 404
   when it reports no matching row. -/
def toggle_build_publish (builds : List BuildRow) (user_id build_id is_public : Nat) :
    Except Nat Unit × List BuildRow :=
  if is_public ≠ 0 ∧ is_public ≠ 1 then (.error 400, builds)
  else
    match update_build_visibility builds build_id user_id is_public with
    | (updated, success) =>
      if success = false then (.error 404, updated)
      else (.ok (), updated)

/- ==================== db.py / app.py: comments ==================== -/

/- A row of the comments table. -/
structure CommentRow where
  comment_id : Nat
  build_id : Nat
  user_id : Nat
  comment_text : Str
  created_at : Nat
deriving DecidableEq

/- db.create_comment: reject a blank text, truncate text beyond 500
   characters, insert the stripped text; next_id stands for the
   autoincremented lastrowid, now for int(time.time()). -/
def create_comment (comments : List CommentRow) (build_id user_id : Nat)
    (comment_text : Str) (now next_id : Nat) : Option (List CommentRow × Nat) :=
  if (strip comment_text).length = 0 then none
  else
    let comment_text := if comment_text.length > 500 then comment_text.take 500 else comment_text
    some (comments ++ [⟨next_id, build_id, user_id, strip comment_text, now⟩], next_id)

/- app.create_comment_endpoint: 404 for a missing build, 400 for a blank or
   over-500-character stripped text, then db.create_comment; the comments
   table is returned alongside the status. -/
def create_comment_endpoint (builds : List BuildRow) (comments : List CommentRow)
    (user_id build_id : Nat) (comment_text : Str) (now next_id : Nat) :
    Except Nat Nat × List CommentRow :=
  match builds.find? (fun b => b.build_id == build_id) with
  | none => (.error 404, comments)
  | some _ =>
    let comment_text := strip comment_text
    if comment_text.length = 0 then (.error 400, comments)
    else if comment_text.length > 500 then (.error 400, comments)
    else
      match create_comment comments build_id user_id comment_text now next_id with
      | none => (.error 500, comments)
      | some (updated, comment_id) => (.ok comment_id, updated)

/- ==================== db.py: build reactions ==================== -/

/- A row of the build_reactions table. -/
structure ReactionRow where
  build_id : Nat
  user_id : Nat
  reaction_type : Str
  created_at : Nat
deriving DecidableEq

/- db private reaction-stats helper: the number of like rows and of dislike
   rows of the build. -/
def get_reaction_stats (reactions : List ReactionRow) (build_id : Nat) : Nat × Nat :=
  (reactions.countP fun r => r.build_id == build_id && r.reaction_type == ("like".data),
   reactions.countP fun r => r.build_id == build_id && r.reaction_type == ("dislike".data))

/- The dict db.toggle_reaction returns, next to the new table state. -/
structure ToggleResult where
  reactions : List ReactionRow
  likes_count : Nat
  dislikes_count : Nat
  current_user_reaction : Option Str
deriving DecidableEq

/- db.toggle_reaction: a repeated reaction is deleted, an opposite one is
   replaced in place, a missing one is inserted; the stats are recomputed
   from the table afterwards.  The ValueError on a type outside like and
   dislike is modelled as none. -/
def toggle_reaction (reactions : List ReactionRow) (build_id user_id : Nat)
    (reaction_type : Str) (now : Nat) : Option ToggleResult :=
  if reaction_type ≠ ("like".data) ∧ reaction_type ≠ ("dislike".data) then none
  else
    let existing := reactions.find? fun r => r.build_id == build_id && r.user_id == user_id
    let step : List ReactionRow × Option Str :=
      match existing with
      | some ex =>
        if ex.reaction_type = reaction_type then
          (reactions.filter fun r => !(r.build_id == build_id && r.user_id == user_id), none)
        else
          (reactions.map fun r =>
             if r.build_id == build_id && r.user_id == user_id then
               { r with reaction_type := reaction_type, created_at := now }
             else r,
           some reaction_type)
      | none =>
        (reactions ++ [⟨build_id, user_id, reaction_type, now⟩], some reaction_type)
    match get_reaction_stats step.1 build_id with
    | (likes_count, dislikes_count) =>
      some ⟨step.1, likes_count, dislikes_count, step.2⟩

/- ==================== shared list lemmas ==================== -/

/- Looking up the key after an in-place update of every matching row finds
   the updated row, provided the update preserves the key. -/
theorem find?_map_update {α : Type} (l : List α) (p : α → Bool) (g : α → α)
    (hg : ∀ a, p (g a) = p a) :
    (l.map fun a => if p a then g a else a).find? p = (l.find? p).map g := by
  induction l with
  | nil => rfl
  | cons a as ih =>
    by_cases h : p a = true
    · simp only [List.map_cons, if_pos h]
      rw [List.find?_cons_of_pos _ ((hg a).trans h), List.find?_cons_of_pos _ h]
      rfl
    · simp only [List.map_cons, if_neg h]
      rw [List.find?_cons_of_neg _ h, List.find?_cons_of_neg _ h, ih]

/- An in-place update of the rows matching p does not disturb a lookup by a
   key q no updated row can match. -/
theorem find?_map_update_ne {α : Type} (l : List α) (p q : α → Bool) (g : α → α)
    (hgq : ∀ a, q (g a) = q a) (hpq : ∀ a, q a = true → p a = false) :
    (l.map fun a => if p a then g a else a).find? q = l.find? q := by
  induction l with
  | nil => rfl
  | cons a as ih =>
    by_cases hp : p a = true
    · simp only [List.map_cons, if_pos hp]
      have hq : q a = false := by
        by_contra hc
        rw [hpq a (by revert hc; cases q a <;> simp)] at hp
        exact Bool.false_ne_true hp
      rw [List.find?_cons_of_neg _ (by simp [hgq, hq]), List.find?_cons_of_neg _ (by simp [hq]), ih]
    · simp only [List.map_cons, if_neg hp]
      by_cases hq : q a = true
      · rw [List.find?_cons_of_pos _ hq, List.find?_cons_of_pos _ hq]
      · rw [List.find?_cons_of_neg _ (by simp [hq]), List.find?_cons_of_neg _ (by simp [hq]), ih]

/- ==================== C3: weekly reset idempotence ==================== -/

/- Every row the reset keeps has its four flags zeroed. -/
theorem mem_reset_weekly_quests {table : List QuestRow} {r : QuestRow}
    (hr : r ∈ reset_weekly_quests table) :
    r.hellmode = false ∧ r.story = false ∧ r.survival = false ∧ r.trials = false ∧
      0 < r.all_completed := by
  unfold reset_weekly_quests at hr
  rw [List.mem_filterMap] at hr
  obtain ⟨a, _, ha⟩ := hr
  by_cases h1 : a.all_completed > 0
  · by_cases h2 : completed_sum a = 4
    · simp only [if_pos h1, if_pos h2, Option.some.injEq] at ha
      subst ha
      simpa using h1
    · simp [if_pos h1, if_neg h2] at ha
  · simp [if_neg h1] at ha

/-- C3 counterexample: on the one-row table whose user has completed all
four quests with streak 1, one reset keeps the zeroed row, while a second
reset deletes it, so running the reset twice differs from running it
once. -/
theorem weekly_reset_not_idempotent_cex :
    reset_weekly_quests (reset_weekly_quests
        [⟨1, ("p".data), true, true, true, true, 1, none⟩]) ≠
      reset_weekly_quests [⟨1, ("p".data), true, true, true, true, 1, none⟩] := by
  decide

/-- C3 (amended): reset_weekly_quests is not idempotent; a second run
deletes every row the first run preserved, so two consecutive runs always
leave the quests_done table empty, and they agree with a single run exactly
when that single run already empties the table. -/
theorem weekly_reset_twice_empty (table : List QuestRow) :
    reset_weekly_quests (reset_weekly_quests table) = [] := by
  rw [show reset_weekly_quests (reset_weekly_quests table) =
        List.filterMap _ (reset_weekly_quests table) from rfl,
      List.filterMap_eq_nil_iff]
  intro r hr
  obtain ⟨h1, h2, h3, h4, _⟩ := mem_reset_weekly_quests hr
  simp [completed_sum, h1, h2, h3, h4, b2n]

/- ==================== C2: weekly reset row behaviour ==================== -/

/- A flag sum of 4 forces all four boolean flags. -/
theorem completed_sum_eq_four {r : QuestRow} (h : completed_sum r = 4) :
    r.hellmode = true ∧ r.story = true ∧ r.survival = true ∧ r.trials = true := by
  obtain ⟨uid, psn, h1, s1, v1, t1, ac, fca⟩ := r
  revert h
  cases h1 <;> cases s1 <;> cases v1 <;> cases t1 <;> simp [completed_sum, b2n]

/-- C2: one run of reset_weekly_quests zeroes the four completion flags of
every surviving row; a row whose four flags were all 1 with a positive
all_completed survives with its streak counter intact, and every other row
is deleted (no row with its user_id remains), so the counter does not
survive in any other case. -/
theorem weekly_reset_row_behavior (table : List QuestRow) (r : QuestRow)
    (hmem : r ∈ table)
    (hkey : table.Pairwise fun a b => a.user_id ≠ b.user_id) :
    (∀ s ∈ reset_weekly_quests table,
        s.hellmode = false ∧ s.story = false ∧ s.survival = false ∧ s.trials = false) ∧
    ((r.hellmode = true ∧ r.story = true ∧ r.survival = true ∧ r.trials = true ∧
        0 < r.all_completed) →
      { r with hellmode := false, story := false, survival := false, trials := false } ∈
        reset_weekly_quests table) ∧
    (¬ (r.hellmode = true ∧ r.story = true ∧ r.survival = true ∧ r.trials = true ∧
        0 < r.all_completed) →
      ∀ s ∈ reset_weekly_quests table, s.user_id ≠ r.user_id) := by
  refine ⟨fun s hs => ?_, fun hc => ?_, fun hc s hs => ?_⟩
  · obtain ⟨u1, u2, u3, u4, _⟩ := mem_reset_weekly_quests hs
    exact ⟨u1, u2, u3, u4⟩
  · obtain ⟨h1, h2, h3, h4, h5⟩ := hc
    unfold reset_weekly_quests
    rw [List.mem_filterMap]
    exact ⟨r, hmem, by simp [completed_sum, h1, h2, h3, h4, b2n, h5]⟩
  · unfold reset_weekly_quests at hs
    rw [List.mem_filterMap] at hs
    obtain ⟨a, hamem, ha⟩ := hs
    by_cases hac : a.all_completed > 0
    · by_cases hcs : completed_sum a = 4
      · simp only [hcs, hac, if_pos, if_true, Option.some.injEq, gt_iff_lt] at ha
        have hsymm : Symmetric fun a b : QuestRow => a.user_id ≠ b.user_id :=
          fun _ _ h => Ne.symm h
        rcases eq_or_ne a r with rfl | hne
        · exact absurd ⟨(completed_sum_eq_four hcs).1, (completed_sum_eq_four hcs).2.1,
            (completed_sum_eq_four hcs).2.2.1, (completed_sum_eq_four hcs).2.2.2, hac⟩ hc
        · have hne2 : a.user_id ≠ r.user_id := hkey.forall hsymm hamem hmem hne
          rw [← ha]
          exact hne2
      · simp [hac, hcs] at ha
    · simp [hac] at ha

/-- C2 witness: on a two-row table, the clean-sweep row with streak 2
survives with zeroed flags and streak intact, while the row that missed a
quest is deleted. -/
theorem weekly_reset_row_behavior_witness :
    ((⟨1, ("p".data), true, true, true, true, 2, none⟩ : QuestRow) ∈
        [(⟨1, ("p".data), true, true, true, true, 2, none⟩ : QuestRow),
         ⟨2, ("q".data), true, true, false, true, 3, some 7⟩]) ∧
    ({ (⟨1, ("p".data), true, true, true, true, 2, none⟩ : QuestRow) with
        hellmode := false, story := false, survival := false, trials := false } ∈
      reset_weekly_quests
        [(⟨1, ("p".data), true, true, true, true, 2, none⟩ : QuestRow),
         ⟨2, ("q".data), true, true, false, true, 3, some 7⟩]) := by
  refine ⟨by decide, ?_⟩
  exact (weekly_reset_row_behavior
    [⟨1, ("p".data), true, true, true, true, 2, none⟩,
     ⟨2, ("q".data), true, true, false, true, 3, some 7⟩]
    ⟨1, ("p".data), true, true, true, true, 2, none⟩
    (by decide) (by decide)).2.1 (by decide)

/- ==================== C8: build visibility toggle ==================== -/

/- Re-running the visibility update map leaves the rows unchanged. -/
theorem update_vis_map_idem (builds : List BuildRow) (build_id user_id is_public : Nat) :
    ((builds.map fun r =>
        if r.build_id == build_id && r.user_id == user_id then { r with is_public := is_public }
        else r).map fun r =>
        if r.build_id == build_id && r.user_id == user_id then { r with is_public := is_public }
        else r) =
      builds.map fun r =>
        if r.build_id == build_id && r.user_id == user_id then { r with is_public := is_public }
        else r := by
  rw [List.map_map]
  refine List.map_congr_left fun a _ => ?_
  simp only [Function.comp_apply]
  by_cases h : (a.build_id == build_id && a.user_id == user_id) = true
  · rw [if_pos h]
    exact if_pos h
  · rw [if_neg h]
    exact if_neg h

/- The visibility update map does not change which rows match the key. -/
theorem update_vis_any (builds : List BuildRow) (build_id user_id is_public : Nat) :
    ((builds.map fun r =>
        if r.build_id == build_id && r.user_id == user_id then { r with is_public := is_public }
        else r).any fun r => r.build_id == build_id && r.user_id == user_id) =
      builds.any fun r => r.build_id == build_id && r.user_id == user_id := by
  induction builds with
  | nil => rfl
  | cons a as ih =>
    simp only [List.map_cons, List.any_cons, ih]
    by_cases h : (a.build_id == build_id && a.user_id == user_id) = true
    · rw [if_pos h]
    · rw [if_neg h]

/-- C8: the builds.togglePublish operation is idempotent — running
toggle_build_publish a second time with the same user, build and is_public
returns the same status and the same builds table as the first run — and
when no row matches the build and owner, update_build_visibility reports
False and leaves the table unchanged. -/
theorem build_visibility_toggle_idem (builds : List BuildRow)
    (user_id build_id is_public : Nat) :
    toggle_build_publish (toggle_build_publish builds user_id build_id is_public).2
        user_id build_id is_public =
      ((toggle_build_publish builds user_id build_id is_public).1,
       (toggle_build_publish builds user_id build_id is_public).2) ∧
    ((builds.any fun r => r.build_id == build_id && r.user_id == user_id) = false →
      update_build_visibility builds build_id user_id is_public = (builds, false)) := by
  constructor
  · by_cases hval : is_public ≠ 0 ∧ is_public ≠ 1
    · simp [toggle_build_publish, if_pos hval]
    · have hexp : ∀ bs : List BuildRow, toggle_build_publish bs user_id build_id is_public =
          ((if (bs.any fun r => r.build_id == build_id && r.user_id == user_id) = false then
              Except.error 404 else Except.ok ()),
           bs.map fun r =>
             if r.build_id == build_id && r.user_id == user_id then
               { r with is_public := is_public }
             else r) := by
        intro bs
        simp only [toggle_build_publish, if_neg hval, update_build_visibility]
        by_cases hs : (bs.any fun r => r.build_id == build_id && r.user_id == user_id) = false
        · rw [if_pos hs, if_pos hs]
        · rw [if_neg hs, if_neg hs]
      have h2 : (toggle_build_publish builds user_id build_id is_public).2 =
          builds.map fun r =>
            if r.build_id == build_id && r.user_id == user_id then
              { r with is_public := is_public }
            else r := by
        rw [hexp]
      rw [Prod.mk.eta, h2, hexp, hexp, update_vis_any, update_vis_map_idem]
  · intro hnone
    unfold update_build_visibility
    rw [hnone]
    refine congrArg (fun l => (l, false)) ?_
    have hall := List.any_eq_false.mp hnone
    calc builds.map (fun r =>
          if r.build_id == build_id && r.user_id == user_id then { r with is_public := is_public }
          else r)
        = builds.map id := List.map_congr_left fun a ha => by simp [hall a ha]
      _ = builds := List.map_id builds

/-- C8 witness: on a one-build table owned by user 5, publishing twice with
is_public 1 equals publishing once, and a call by non-owner 6 reports
failure and changes nothing. -/
theorem build_visibility_toggle_idem_witness :
    toggle_build_publish (toggle_build_publish [(⟨10, 5, ("a".data), 0⟩ : BuildRow)] 5 10 1).2
        5 10 1 =
      ((toggle_build_publish [(⟨10, 5, ("a".data), 0⟩ : BuildRow)] 5 10 1).1,
       (toggle_build_publish [(⟨10, 5, ("a".data), 0⟩ : BuildRow)] 5 10 1).2) ∧
    update_build_visibility [(⟨10, 6, ("a".data), 0⟩ : BuildRow)] 10 5 1 =
      ([(⟨10, 6, ("a".data), 0⟩ : BuildRow)], false) :=
  ⟨(build_visibility_toggle_idem [⟨10, 5, ("a".data), 0⟩] 5 10 1).1,
   (build_visibility_toggle_idem [⟨10, 6, ("a".data), 0⟩] 5 10 1).2 (by decide)⟩

/- ==================== C5: comment length cap ==================== -/

/- Stripping never lengthens a string. -/
theorem strip_length_le (s : Str) : (strip s).length ≤ s.length := by
  unfold strip rstrip lstrip
  calc ((s.dropWhile isspace).reverse.dropWhile isspace).reverse.length
      = ((s.dropWhile isspace).reverse.dropWhile isspace).length := List.length_reverse _
    _ ≤ (s.dropWhile isspace).reverse.length := (List.dropWhile_sublist _).length_le
    _ = (s.dropWhile isspace).length := List.length_reverse _
    _ ≤ s.length := (List.dropWhile_sublist _).length_le

/-- C5: on a request for an existing build, a blank stripped comment text
fails with 400, a stripped text longer than 500 characters fails with 400
leaving the comments table unchanged, and whatever the outcome, every row
of the resulting comments table is either an old row or carries a
comment_text of at most 500 characters. -/
theorem comment_length_capped (builds : List BuildRow) (comments : List CommentRow)
    (user_id build_id : Nat) (comment_text : Str) (now next_id : Nat) (b : BuildRow)
    (hb : builds.find? (fun b => b.build_id == build_id) = some b) :
    ((strip comment_text).length = 0 →
      create_comment_endpoint builds comments user_id build_id comment_text now next_id =
        (.error 400, comments)) ∧
    ((strip comment_text).length > 500 →
      create_comment_endpoint builds comments user_id build_id comment_text now next_id =
        (.error 400, comments)) ∧
    (∀ c, c ∈ (create_comment_endpoint builds comments user_id build_id comment_text
        now next_id).2 → c ∈ comments ∨ c.comment_text.length ≤ 500) := by
  unfold create_comment_endpoint
  rw [hb]
  refine ⟨fun h0 => ?_, fun h5 => ?_, fun c hc => ?_⟩
  · rw [if_pos h0]
  · rw [if_neg (by omega), if_pos h5]
  · by_cases h0 : (strip comment_text).length = 0
    · rw [if_pos h0] at hc
      exact Or.inl hc
    · rw [if_neg h0] at hc
      by_cases h5 : (strip comment_text).length > 500
      · rw [if_pos h5] at hc
        exact Or.inl hc
      · rw [if_neg h5] at hc
        unfold create_comment at hc
        by_cases hz : (strip (strip comment_text)).length = 0
        · rw [if_pos hz] at hc
          exact Or.inl hc
        · rw [if_neg hz, if_neg h5] at hc
          simp only [List.mem_append, List.mem_singleton] at hc
          rcases hc with hold | hnew
          · exact Or.inl hold
          · refine Or.inr ?_
            rw [hnew]
            exact le_trans (strip_length_le _) (by omega)

set_option maxRecDepth 4000 in
/-- C5 witness: with one existing build, a blank comment and a
501-character comment are both rejected with 400 and leave the comments
table unchanged. -/
theorem comment_length_capped_witness :
    ([(⟨1, 5, ("a".data), 1⟩ : BuildRow)].find? (fun b => b.build_id == 1) =
      some ⟨1, 5, ("a".data), 1⟩) ∧
    create_comment_endpoint [(⟨1, 5, ("a".data), 1⟩ : BuildRow)] [] 5 1
        ([] : Str) 100 1 = (.error 400, []) ∧
    create_comment_endpoint [(⟨1, 5, ("a".data), 1⟩ : BuildRow)] [] 5 1
        (List.replicate 501 'x') 100 1 = (.error 400, []) :=
  ⟨by decide,
   (comment_length_capped [⟨1, 5, ("a".data), 1⟩] [] 5 1 [] 100 1
     ⟨1, 5, ("a".data), 1⟩ (by decide)).1 (by decide),
   (comment_length_capped [⟨1, 5, ("a".data), 1⟩] [] 5 1 (List.replicate 501 'x') 100 1
     ⟨1, 5, ("a".data), 1⟩ (by decide)).2.1 (by decide)⟩

/- ==================== C9: authentication enforcement ==================== -/

/-- C9 counterexample: with bot token tok, the Authorization header built
from two copies of the Bearer prefix in front of tok does not equal the
token after stripping one optional Bearer prefix, so the claim demands a
401 rejection, yet verify_bot_authorization accepts it, because the source
removes every occurrence of the Bearer text before comparing. -/
theorem bot_auth_not_prefix_stripping_cex :
    verify_bot_authorization ("tok".data) (some ("Bearer Bearer tok".data)) = true ∧
    claimed_bot_token_check ("tok".data) ("Bearer Bearer tok".data) = false := by
  decide

/-- C9 (amended): a request with a missing X-Telegram-Init-Data header, a
failed validation or no extracted user id is rejected with 401 by
get_current_user; and the bot-only guard accepts an Authorization header
exactly when it is non-empty and, after removing every occurrence of the
Bearer text and stripping whitespace, equals the bot token — any other
header makes verify_bot_authorization report false and the guarded
endpoint, here mastery.approve, rejects the request with 401 untouched
state. -/
theorem auth_rejects_unauthorized {α : Type}
    (validate_init_data : Str → Option α) (get_user_id_from_init_data : α → Option Nat)
    (bot_token : Str) :
    (get_current_user validate_init_data get_user_id_from_init_data none = .error 401) ∧
    (∀ s, validate_init_data s = none →
      get_current_user validate_init_data get_user_id_from_init_data (some s) = .error 401) ∧
    (∀ s d, validate_init_data s = some d → get_user_id_from_init_data d = none →
      get_current_user validate_init_data get_user_id_from_init_data (some s) = .error 401) ∧
    (∀ a, verify_bot_authorization bot_token (some a) = true ↔
      (a ≠ [] ∧ strip (replace_all ("Bearer ".data) [] a) = bot_token)) ∧
    verify_bot_authorization bot_token none = false ∧
    (∀ authorization config users mastery user_id category_key next_level,
      verify_bot_authorization bot_token authorization = false →
      approve_mastery_application bot_token authorization config users mastery user_id
          category_key next_level = ⟨some 401, mastery, false⟩) := by
  refine ⟨rfl, fun s hs => ?_, fun s d hd hu => ?_, fun a => ?_, rfl,
    fun authorization config users mastery user_id category_key next_level hv => ?_⟩
  · by_cases he : s = []
    · subst he
      simp [get_current_user]
    · simp only [get_current_user]
      rw [if_neg he, hs]
  · by_cases he : s = []
    · subst he
      simp [get_current_user]
    · simp only [get_current_user]
      rw [if_neg he, hd]
      simp [hu]
  · unfold verify_bot_authorization
    by_cases he : a = []
    · simp [he]
    · simp only [if_neg he, beq_iff_eq]
      exact ⟨fun h => ⟨he, h⟩, fun h => h.2⟩
  · unfold approve_mastery_application
    rw [hv, if_pos rfl]

/-- C9 witness: a missing header, a header failing validation, a validated
header without a user id, and a wrong bot token are all rejected with 401,
and the approve endpoint propagates the bot rejection. -/
theorem auth_rejects_unauthorized_witness :
    (get_current_user (fun _ : Str => (none : Option Unit)) (fun _ => none) none =
      .error 401) ∧
    (get_current_user (fun _ : Str => (none : Option Unit)) (fun _ => none)
      (some ("abc".data)) = .error 401) ∧
    (get_current_user (fun _ : Str => (some () : Option Unit)) (fun _ => none)
      (some ("abc".data)) = .error 401) ∧
    (verify_bot_authorization ("tok".data) (some ("wrong".data)) = true ↔
      (("wrong".data : Str) ≠ [] ∧
        strip (replace_all ("Bearer ".data) [] ("wrong".data)) = ("tok".data))) ∧
    approve_mastery_application ("tok".data) (some ("wrong".data))
        ⟨[]⟩ [] [] 1 ("solo".data) 1 = ⟨some 401, [], false⟩ := by
  refine ⟨(auth_rejects_unauthorized (fun _ : Str => (none : Option Unit))
      (fun _ => none) ("tok".data)).1, ?_, ?_, ?_, ?_⟩
  · exact (auth_rejects_unauthorized (fun _ : Str => (none : Option Unit))
      (fun _ => none) ("tok".data)).2.1 ("abc".data) rfl
  · exact (auth_rejects_unauthorized (fun _ : Str => (some () : Option Unit))
      (fun _ => none) ("tok".data)).2.2.1 ("abc".data) () rfl rfl
  · exact (auth_rejects_unauthorized (fun _ : Str => (none : Option Unit))
      (fun _ => none) ("tok".data)).2.2.2.1 ("wrong".data)
  · exact (auth_rejects_unauthorized (fun _ : Str => (none : Option Unit))
      (fun _ => none) ("tok".data)).2.2.2.2.2 (some ("wrong".data)) ⟨[]⟩ [] [] 1
      ("solo".data) 1 (by decide)

/- ==================== C1: hellmode quest generation ==================== -/

/- When every attempt in range collides, the loop falls through to the
   fresh draw made after it. -/
theorem quest_attempts_all_dup (cfg : HellmodeConfig) (draws : Nat → RandomChoice)
    (curs : List (Option HMQuest)) (fuel : Nat) :
    ∀ start : Nat,
    (∀ i, start ≤ i → i < start + fuel →
      (generate_random_quest cfg (draws i)).any
        (fun q => has_duplicates q curs) = true) →
    quest_attempts cfg draws curs start fuel =
      generate_random_quest cfg (draws (start + fuel)) := by
  induction fuel with
  | zero => intro start _; rfl
  | succ n ih =>
    intro start h
    have h0 := h start (le_refl _) (by omega)
    cases hg : generate_random_quest cfg (draws start) with
    | none => rw [hg] at h0; simp [Option.any] at h0
    | some q =>
      rw [hg] at h0
      have hdup : has_duplicates q curs = true := by simpa [Option.any] using h0
      simp only [quest_attempts, hg, hdup, if_true]
      rw [ih (start + 1) (fun i hi1 hi2 => h i (by omega) (by omega))]
      rw [show start + 1 + n = start + (n + 1) from by omega]

/- The loop accepts the first candidate that does not collide. -/
theorem quest_attempts_first_ok (cfg : HellmodeConfig) (draws : Nat → RandomChoice)
    (curs : List (Option HMQuest)) (fuel : Nat) :
    ∀ start k : Nat, ∀ q : HMQuest,
    start ≤ k → k < start + fuel →
    (∀ i, start ≤ i → i < k →
      (generate_random_quest cfg (draws i)).any
        (fun c => has_duplicates c curs) = true) →
    generate_random_quest cfg (draws k) = some q →
    has_duplicates q curs = false →
    quest_attempts cfg draws curs start fuel = some q := by
  induction fuel with
  | zero => intro start k q h1 h2 _ _ _; omega
  | succ n ih =>
    intro start k q h1 h2 hearlier hq hnd
    rcases eq_or_lt_of_le h1 with rfl | hlt
    · simp only [quest_attempts, hq, hnd, if_false, Bool.false_eq_true]
    · have h0 := hearlier start (le_refl _) hlt
      cases hg : generate_random_quest cfg (draws start) with
      | none => rw [hg] at h0; simp [Option.any] at h0
      | some q0 =>
        rw [hg] at h0
        have hdup : has_duplicates q0 curs = true := by simpa [Option.any] using h0
        simp only [quest_attempts, hg, hdup, if_true]
        exact ih (start + 1) k q (by omega) (by omega)
          (fun i hi1 hi2 => hearlier i (by omega) hi2) hq hnd

/- Concrete two-item catalogs used to exercise the generator. -/
def cfg_cex : HellmodeConfig :=
  ⟨[⟨("m1".data), ("M1".data), 0⟩, ⟨("m2".data), ("M2".data), 5⟩],
   [⟨("e1".data), ("E1".data), 0⟩, ⟨("e2".data), ("E2".data), 0⟩],
   [⟨("c1".data), ("C1".data), 0⟩, ⟨("c2".data), ("C2".data), 10⟩],
   [⟨("g1".data), ("G1".data), 0⟩, ⟨("g2".data), ("G2".data), 20⟩]⟩

/- An oracle whose first ten draws pick the first catalog entries and whose
   eleventh draw picks the second entries. -/
def draws_cex : Nat → RandomChoice := fun i => if i < 10 then ⟨0, 0, 0, 0⟩ else ⟨1, 1, 1, 1⟩

/- The active weekly quest built from the first catalog entries. -/
def cur_weekly_cex : HMQuest :=
  ⟨("m1".data), ("M1".data), ("e1".data), ("E1".data), ("c1".data), ("C1".data),
   ("g1".data), ("G1".data), 350⟩

/- The quest built from the second catalog entries. -/
def quest2_cex : HMQuest :=
  ⟨("m2".data), ("M2".data), ("e2".data), ("E2".data), ("c2".data), ("C2".data),
   ("g2".data), ("G2".data), 385⟩

/-- C1 counterexample: every one of the ten attempts collides with the
active weekly quest, yet the quest the generator saves is not the last
candidate generated by the retry loop (the tenth draw): the source draws an
eleventh fresh candidate after the loop and saves that instead. -/
theorem quest_after_collisions_cex :
    (∀ i, i < MAX_ATTEMPTS →
      (generate_random_quest cfg_cex (draws_cex i)).any
        (fun c => has_duplicates c [some cur_weekly_cex, none]) = true) ∧
    main_weekly_quest cfg_cex draws_cex (some cur_weekly_cex) none ≠
      generate_random_quest cfg_cex (draws_cex 9) := by
  decide

/-- C1 (amended): each candidate quest is one random draw from the map,
emote, class and gear catalogs; a candidate sharing any slug with an active
quest is rejected and redrawn, up to MAX_ATTEMPTS = 10 times, and the first
non-colliding candidate is saved; if all 10 attempts collide, an eleventh
fresh candidate is drawn after the loop and saved without any duplicate
check — the saved quest is this fresh draw, not the loop's last
candidate. -/
theorem quest_generation_retry (cfg : HellmodeConfig) (draws : Nat → RandomChoice)
    (cur1 cur2 : Option HMQuest) :
    (∀ k q, k < MAX_ATTEMPTS →
      (∀ i, i < k →
        (generate_random_quest cfg (draws i)).any
          (fun c => has_duplicates c [cur1, cur2]) = true) →
      generate_random_quest cfg (draws k) = some q →
      has_duplicates q [cur1, cur2] = false →
      main_weekly_quest cfg draws cur1 cur2 = some q) ∧
    ((∀ i, i < MAX_ATTEMPTS →
        (generate_random_quest cfg (draws i)).any
          (fun c => has_duplicates c [cur1, cur2]) = true) →
      main_weekly_quest cfg draws cur1 cur2 =
        generate_random_quest cfg (draws MAX_ATTEMPTS)) := by
  constructor
  · intro k q hk hearlier hq hnd
    exact quest_attempts_first_ok cfg draws [cur1, cur2] MAX_ATTEMPTS 0 k q
      (Nat.zero_le k) (by omega) (fun i _ hi2 => hearlier i hi2) hq hnd
  · intro hall
    exact quest_attempts_all_dup cfg draws [cur1, cur2] MAX_ATTEMPTS 0
      (fun i _ hi2 => hall i (by omega))

/-- C1 witness: with the two-entry catalogs, an oracle whose first draw
avoids the active quest gets its first candidate saved, and the
all-collisions oracle falls through to the draw after the loop. -/
theorem quest_generation_retry_witness :
    main_weekly_quest cfg_cex (fun _ => ⟨1, 1, 1, 1⟩) (some cur_weekly_cex) none =
      some quest2_cex ∧
    main_weekly_quest cfg_cex draws_cex (some cur_weekly_cex) none =
      generate_random_quest cfg_cex (draws_cex MAX_ATTEMPTS) :=
  ⟨(quest_generation_retry cfg_cex (fun _ => ⟨1, 1, 1, 1⟩) (some cur_weekly_cex) none).1
      0 quest2_cex (by decide) (by decide) (by decide) (by decide),
   (quest_generation_retry cfg_cex draws_cex (some cur_weekly_cex) none).2 (by decide)⟩

/- ==================== C6: reaction toggling ==================== -/

/- A reaction type in the allowed pair passes the ValueError guard. -/
theorem reaction_guard_false {reaction_type : Str}
    (hrt : reaction_type = ("like".data) ∨ reaction_type = ("dislike".data)) :
    ¬ (reaction_type ≠ ("like".data) ∧ reaction_type ≠ ("dislike".data)) := by
  rcases hrt with rfl | rfl
  · exact fun h => h.1 rfl
  · exact fun h => h.2 rfl

/- Toggling the stored type deletes the row and reports no reaction. -/
theorem toggle_reaction_delete_eq (reactions : List ReactionRow) (build_id user_id : Nat)
    (reaction_type : Str) (now : Nat) (ex : ReactionRow)
    (hrt : reaction_type = ("like".data) ∨ reaction_type = ("dislike".data))
    (hex : reactions.find? (fun r => r.build_id == build_id && r.user_id == user_id) = some ex)
    (hty : ex.reaction_type = reaction_type) :
    toggle_reaction reactions build_id user_id reaction_type now =
      some ⟨reactions.filter fun r => !(r.build_id == build_id && r.user_id == user_id),
            (get_reaction_stats
              (reactions.filter fun r => !(r.build_id == build_id && r.user_id == user_id))
              build_id).1,
            (get_reaction_stats
              (reactions.filter fun r => !(r.build_id == build_id && r.user_id == user_id))
              build_id).2,
            none⟩ := by
  simp only [toggle_reaction, if_neg (reaction_guard_false hrt), hex, if_pos hty,
    get_reaction_stats]

/- Toggling against a stored different type replaces it in place. -/
theorem toggle_reaction_replace_eq (reactions : List ReactionRow) (build_id user_id : Nat)
    (reaction_type : Str) (now : Nat) (ex : ReactionRow)
    (hrt : reaction_type = ("like".data) ∨ reaction_type = ("dislike".data))
    (hex : reactions.find? (fun r => r.build_id == build_id && r.user_id == user_id) = some ex)
    (hty : ¬ ex.reaction_type = reaction_type) :
    toggle_reaction reactions build_id user_id reaction_type now =
      some ⟨reactions.map fun r =>
              if r.build_id == build_id && r.user_id == user_id then
                { r with reaction_type := reaction_type, created_at := now }
              else r,
            (get_reaction_stats
              (reactions.map fun r =>
                if r.build_id == build_id && r.user_id == user_id then
                  { r with reaction_type := reaction_type, created_at := now }
                else r)
              build_id).1,
            (get_reaction_stats
              (reactions.map fun r =>
                if r.build_id == build_id && r.user_id == user_id then
                  { r with reaction_type := reaction_type, created_at := now }
                else r)
              build_id).2,
            some reaction_type⟩ := by
  simp only [toggle_reaction, if_neg (reaction_guard_false hrt), hex, if_neg hty,
    get_reaction_stats]

/- Toggling with nothing stored inserts a fresh row. -/
theorem toggle_reaction_insert_eq (reactions : List ReactionRow) (build_id user_id : Nat)
    (reaction_type : Str) (now : Nat)
    (hrt : reaction_type = ("like".data) ∨ reaction_type = ("dislike".data))
    (hex : reactions.find? (fun r => r.build_id == build_id && r.user_id == user_id) = none) :
    toggle_reaction reactions build_id user_id reaction_type now =
      some ⟨reactions ++ [⟨build_id, user_id, reaction_type, now⟩],
            (get_reaction_stats (reactions ++ [⟨build_id, user_id, reaction_type, now⟩])
              build_id).1,
            (get_reaction_stats (reactions ++ [⟨build_id, user_id, reaction_type, now⟩])
              build_id).2,
            some reaction_type⟩ := by
  simp only [toggle_reaction, if_neg (reaction_guard_false hrt), hex, get_reaction_stats]

/- A search over a list whose head part yields nothing continues right. -/
theorem find?_append_of_none {α : Type} (l1 l2 : List α) (p : α → Bool)
    (h : l1.find? p = none) : (l1 ++ l2).find? p = l2.find? p := by
  induction l1 with
  | nil => rfl
  | cons a as ih =>
    by_cases hp : p a = true
    · rw [List.find?_cons_of_pos _ hp] at h
      exact absurd h (by simp)
    · rw [List.find?_cons_of_neg _ (by simp [hp])] at h
      rw [List.cons_append, List.find?_cons_of_neg _ (by simp [hp])]
      exact ih h

/-- C6: with a valid reaction type, toggling when the same type is stored
deletes the user's reaction for the build and reports no current reaction;
toggling when the opposite type is stored replaces the stored type in the
one call; toggling with nothing stored inserts a row of the requested type;
and the returned likes_count and dislikes_count always equal the number of
like and dislike rows of that build after the change. -/
theorem toggle_reaction_cycles (reactions : List ReactionRow) (build_id user_id : Nat)
    (reaction_type : Str) (now : Nat)
    (hrt : reaction_type = ("like".data) ∨ reaction_type = ("dislike".data)) :
    (∀ ex, reactions.find? (fun r => r.build_id == build_id && r.user_id == user_id) =
        some ex →
      ∀ res, toggle_reaction reactions build_id user_id reaction_type now = some res →
      (ex.reaction_type = reaction_type →
        res.current_user_reaction = none ∧
        res.reactions.find? (fun r => r.build_id == build_id && r.user_id == user_id) =
          none) ∧
      (ex.reaction_type ≠ reaction_type →
        res.current_user_reaction = some reaction_type ∧
        (res.reactions.find? (fun r => r.build_id == build_id && r.user_id == user_id)).map
          (fun r => r.reaction_type) = some reaction_type)) ∧
    (reactions.find? (fun r => r.build_id == build_id && r.user_id == user_id) = none →
      ∀ res, toggle_reaction reactions build_id user_id reaction_type now = some res →
        res.current_user_reaction = some reaction_type ∧
        res.reactions.find? (fun r => r.build_id == build_id && r.user_id == user_id) =
          some ⟨build_id, user_id, reaction_type, now⟩) ∧
    (∀ res, toggle_reaction reactions build_id user_id reaction_type now = some res →
      res.likes_count = res.reactions.countP
        (fun r => r.build_id == build_id && r.reaction_type == ("like".data)) ∧
      res.dislikes_count = res.reactions.countP
        (fun r => r.build_id == build_id && r.reaction_type == ("dislike".data))) := by
  refine ⟨fun ex hex res hres => ⟨fun hty => ?_, fun hty => ?_⟩,
    fun hex res hres => ?_, fun res hres => ?_⟩
  · rw [toggle_reaction_delete_eq reactions build_id user_id reaction_type now ex hrt hex hty,
      Option.some.injEq] at hres
    subst hres
    refine ⟨rfl, List.find?_eq_none.mpr fun r hr => ?_⟩
    have := (List.mem_filter.mp hr).2
    simp only [Bool.not_eq_eq_eq_not, Bool.not_true] at this
    simp [this]
  · rw [toggle_reaction_replace_eq reactions build_id user_id reaction_type now ex hrt hex hty,
      Option.some.injEq] at hres
    subst hres
    refine ⟨rfl, ?_⟩
    show ((List.map _ reactions).find? _).map _ = _
    rw [find?_map_update reactions
      (fun r => r.build_id == build_id && r.user_id == user_id)
      (fun r => { r with reaction_type := reaction_type, created_at := now })
      (fun a => rfl), hex]
    rfl
  · rw [toggle_reaction_insert_eq reactions build_id user_id reaction_type now hrt hex,
      Option.some.injEq] at hres
    subst hres
    refine ⟨rfl, ?_⟩
    show (List.find? _ (reactions ++ _)) = _
    rw [find?_append_of_none reactions _ _ hex]
    simp
  · rcases hfind : reactions.find? (fun r => r.build_id == build_id && r.user_id == user_id)
      with _ | ex
    · rw [toggle_reaction_insert_eq reactions build_id user_id reaction_type now hrt hfind,
        Option.some.injEq] at hres
      subst hres
      exact ⟨rfl, rfl⟩
    · by_cases hty : ex.reaction_type = reaction_type
      · rw [toggle_reaction_delete_eq reactions build_id user_id reaction_type now ex hrt
          hfind hty, Option.some.injEq] at hres
        subst hres
        exact ⟨rfl, rfl⟩
      · rw [toggle_reaction_replace_eq reactions build_id user_id reaction_type now ex hrt
          hfind hty, Option.some.injEq] at hres
        subst hres
        exact ⟨rfl, rfl⟩

/-- C6 witness: a user with a stored like on build 3 toggles like; the
reaction row is deleted, no current reaction is reported, and the counts
are recomputed from the emptied table. -/
theorem toggle_reaction_cycles_witness :
    ([(⟨3, 7, ("like".data), 1⟩ : ReactionRow)].find?
        (fun r => r.build_id == 3 && r.user_id == 7) = some ⟨3, 7, ("like".data), 1⟩) ∧
    ((⟨[], 0, 0, none⟩ : ToggleResult).current_user_reaction = none ∧
      (⟨[], 0, 0, none⟩ : ToggleResult).reactions.find?
        (fun r => r.build_id == 3 && r.user_id == 7) = none) :=
  ⟨by decide,
   ((toggle_reaction_cycles [⟨3, 7, ("like".data), 1⟩] 3 7 ("like".data) 2 (Or.inl rfl)).1
     ⟨3, 7, ("like".data), 1⟩ (by decide) ⟨[], 0, 0, none⟩ (by decide)).1 rfl⟩

/- ==================== C4: mastery approval ==================== -/

/- A found element satisfies the search predicate. -/
theorem find?_pred_true {α : Type} {p : α → Bool} {l : List α} {a : α}
    (h : l.find? p = some a) : p a = true := by
  induction l with
  | nil => exact absurd h (by simp)
  | cons x xs ih =>
    by_cases hp : p x = true
    · rw [List.find?_cons_of_pos _ hp] at h
      rw [Option.some.injEq] at h
      rw [← h]
      exact hp
    · rw [List.find?_cons_of_neg _ (by simp [hp])] at h
      exact ih h

/- A successful search in the left part decides the appended search. -/
theorem find?_append_left {α : Type} (l1 l2 : List α) (p : α → Bool) (a : α)
    (h : l1.find? p = some a) : (l1 ++ l2).find? p = some a := by
  induction l1 with
  | nil => exact absurd h (by simp)
  | cons x xs ih =>
    by_cases hp : p x = true
    · rw [List.find?_cons_of_pos _ hp] at h
      rw [List.cons_append, List.find?_cons_of_pos _ hp]
      exact h
    · rw [List.find?_cons_of_neg _ (by simp [hp])] at h
      rw [List.cons_append, List.find?_cons_of_neg _ (by simp [hp])]
      exact ih h

/- Writing a mastery column never changes the key of the row. -/
theorem set_mastery_row_user_id (r : MasteryRow) (cat : Str) (lvl : Nat) :
    (set_mastery_row r cat lvl).user_id = r.user_id := by
  unfold set_mastery_row
  split_ifs <;> rfl

/- Writing a category column and reading it back yields the level. -/
theorem mastery_level_set_same (r : MasteryRow) (cat : Str) (lvl : Nat)
    (hcat : cat ∈ MASTERY_CATEGORIES) :
    mastery_level (set_mastery_row r cat lvl) cat = lvl := by
  simp only [MASTERY_CATEGORIES, List.mem_cons, List.not_mem_nil, or_false] at hcat
  rcases hcat with rfl | rfl | rfl | rfl | rfl <;> rfl

/- Writing a category column leaves every other category lookup intact. -/
theorem mastery_level_set_other (r : MasteryRow) (cat cat2 : Str) (lvl : Nat)
    (hcat : cat ∈ MASTERY_CATEGORIES) (hne : cat2 ≠ cat) :
    mastery_level (set_mastery_row r cat lvl) cat2 = mastery_level r cat2 := by
  simp only [MASTERY_CATEGORIES, List.mem_cons, List.not_mem_nil, or_false] at hcat
  rcases hcat with rfl | rfl | rfl | rfl | rfl
  · rw [show set_mastery_row r ("solo".data) lvl = { r with solo := lvl } from rfl]
    unfold mastery_level
    split_ifs <;> first | rfl | exact absurd (by assumption) hne
  · rw [show set_mastery_row r ("hellmode".data) lvl = { r with hellmode := lvl } from rfl]
    unfold mastery_level
    split_ifs <;> first | rfl | exact absurd (by assumption) hne
  · rw [show set_mastery_row r ("raid".data) lvl = { r with raid := lvl } from rfl]
    unfold mastery_level
    split_ifs <;> first | rfl | exact absurd (by assumption) hne
  · rw [show set_mastery_row r ("speedrun".data) lvl = { r with speedrun := lvl } from rfl]
    unfold mastery_level
    split_ifs <;> first | rfl | exact absurd (by assumption) hne
  · rw [show set_mastery_row r ("glitch".data) lvl = { r with glitch := lvl } from rfl]
    unfold mastery_level
    split_ifs <;> first | rfl | exact absurd (by assumption) hne

/- db.set_mastery on a user who has a row: the UPDATE branch. -/
theorem set_mastery_update_eq (users : List UserRow) (table : List MasteryRow)
    (uid : Nat) (cat : Str) (lvl : Nat) (c0 : MasteryRow)
    (hconts : MASTERY_CATEGORIES.contains cat = true)
    (hc0 : table.find? (fun r => r.user_id == uid) = some c0) :
    set_mastery users table uid cat lvl =
      some (table.map fun r =>
        if r.user_id == uid then
          { r with solo := (set_mastery_row c0 cat lvl).solo,
                   hellmode := (set_mastery_row c0 cat lvl).hellmode,
                   raid := (set_mastery_row c0 cat lvl).raid,
                   speedrun := (set_mastery_row c0 cat lvl).speedrun,
                   glitch := (set_mastery_row c0 cat lvl).glitch }
        else r) := by
  have hp := find?_pred_true hc0
  have hany : (table.any fun r => r.user_id == uid) = true :=
    List.any_eq_true.mpr ⟨c0, List.mem_of_find?_eq_some hc0, hp⟩
  unfold set_mastery
  rw [if_neg (by rw [hconts]; simp), if_pos hany, hc0]
  rfl

/- db.set_mastery on a user without a row: the INSERT branch. -/
theorem set_mastery_insert_eq (users : List UserRow) (table : List MasteryRow)
    (uid : Nat) (cat : Str) (lvl : Nat)
    (hconts : MASTERY_CATEGORIES.contains cat = true)
    (hnone : (table.any fun r => r.user_id == uid) = false) :
    set_mastery users table uid cat lvl =
      some (table ++ [set_mastery_row
        ⟨uid, match users.find? (fun u => u.user_id == uid) with
              | some u => if u.psn_id ≠ [] then some u.psn_id else none
              | none => none, 0, 0, 0, 0, 0⟩ cat lvl]) := by
  unfold set_mastery
  rw [if_neg (by rw [hconts]; simp), if_neg (by rw [hnone]; simp)]

/- db.set_mastery writes exactly the requested category of the requested
   user, and no other user or category that get_mastery can observe. -/
theorem set_mastery_spec (users : List UserRow) (table : List MasteryRow) (uid : Nat)
    (cat : Str) (lvl : Nat) (hcat : cat ∈ MASTERY_CATEGORIES) :
    ∃ t2, set_mastery users table uid cat lvl = some t2 ∧
      get_mastery t2 uid cat = lvl ∧
      (∀ cat2, cat2 ≠ cat → get_mastery t2 uid cat2 = get_mastery table uid cat2) ∧
      (∀ uid2, uid2 ≠ uid → ∀ cat2,
        get_mastery t2 uid2 cat2 = get_mastery table uid2 cat2) := by
  have hconts : MASTERY_CATEGORIES.contains cat = true := List.elem_eq_true_of_mem hcat
  by_cases hany : (table.any fun r => r.user_id == uid) = true
  · obtain ⟨c0, hc0⟩ : ∃ c0, table.find? (fun r => r.user_id == uid) = some c0 := by
      cases hf : table.find? (fun r => r.user_id == uid) with
      | none =>
        obtain ⟨r, hr, hkey⟩ := List.any_eq_true.mp hany
        exact absurd (List.find?_eq_none.mp hf r hr) (by simp [hkey])
      | some c0 => exact ⟨c0, rfl⟩
    rw [set_mastery_update_eq users table uid cat lvl c0 hconts hc0]
    refine ⟨_, rfl, ?_, ?_, ?_⟩
    · unfold get_mastery
      rw [find?_map_update table (fun r => r.user_id == uid)
        (fun r => { r with solo := (set_mastery_row c0 cat lvl).solo,
                           hellmode := (set_mastery_row c0 cat lvl).hellmode,
                           raid := (set_mastery_row c0 cat lvl).raid,
                           speedrun := (set_mastery_row c0 cat lvl).speedrun,
                           glitch := (set_mastery_row c0 cat lvl).glitch })
        (fun a => rfl), hc0]
      exact mastery_level_set_same c0 cat lvl hcat
    · intro cat2 hne
      unfold get_mastery
      rw [find?_map_update table (fun r => r.user_id == uid)
        (fun r => { r with solo := (set_mastery_row c0 cat lvl).solo,
                           hellmode := (set_mastery_row c0 cat lvl).hellmode,
                           raid := (set_mastery_row c0 cat lvl).raid,
                           speedrun := (set_mastery_row c0 cat lvl).speedrun,
                           glitch := (set_mastery_row c0 cat lvl).glitch })
        (fun a => rfl), hc0]
      exact mastery_level_set_other c0 cat cat2 lvl hcat hne
    · intro uid2 hne cat2
      unfold get_mastery
      rw [find?_map_update_ne table (fun r => r.user_id == uid)
        (fun r => r.user_id == uid2)
        (fun r => { r with solo := (set_mastery_row c0 cat lvl).solo,
                           hellmode := (set_mastery_row c0 cat lvl).hellmode,
                           raid := (set_mastery_row c0 cat lvl).raid,
                           speedrun := (set_mastery_row c0 cat lvl).speedrun,
                           glitch := (set_mastery_row c0 cat lvl).glitch })
        (fun a => rfl)
        (fun a ha => by
          rw [beq_iff_eq] at ha
          simp [ha, hne])]
  · have hnone : (table.any fun r => r.user_id == uid) = false := by
      revert hany
      cases table.any fun r => r.user_id == uid <;> simp
    rw [set_mastery_insert_eq users table uid cat lvl hconts hnone]
    have hfnone : table.find? (fun r => r.user_id == uid) = none :=
      List.find?_eq_none.mpr fun a ha => by simp [List.any_eq_false.mp hnone a ha]
    refine ⟨_, rfl, ?_, ?_, ?_⟩
    · unfold get_mastery
      rw [find?_append_of_none table _ _ hfnone,
        List.find?_cons_of_pos _ (by simp [set_mastery_row_user_id])]
      exact mastery_level_set_same _ cat lvl hcat
    · intro cat2 hne
      unfold get_mastery
      rw [find?_append_of_none table _ _ hfnone, hfnone,
        List.find?_cons_of_pos _ (by simp [set_mastery_row_user_id])]
      show mastery_level _ cat2 = _
      rw [mastery_level_set_other _ cat cat2 lvl hcat hne]
      unfold mastery_level
      split_ifs <;> rfl
    · intro uid2 hne cat2
      unfold get_mastery
      cases hf2 : table.find? (fun r => r.user_id == uid2) with
      | some c2 => rw [find?_append_left table _ _ c2 hf2]
      | none =>
        rw [find?_append_of_none table _ _ hf2,
          List.find?_cons_of_neg _ (by simp [set_mastery_row_user_id, Ne.symm hne]),
          List.find?_nil]

/-- C4: when the bot is authorised, the category is one of the five mastery
categories and its config entry has a positive maxLevels, the approval
fails with 400 and leaves the mastery table unchanged whenever the
submitted next_level differs from the current level plus 1; otherwise it
raises no 4xx, writes exactly current + 1 into that category of that user,
changes no other category and no other user, and grants the category
trophy precisely when the new level reaches maxLevels. -/
theorem approve_mastery_level_step (bot_token : Str) (authorization : Option Str)
    (config : MasteryConfig) (users : List UserRow) (mastery : List MasteryRow)
    (user_id : Nat) (category_key : Str) (next_level : Nat) (c : MasteryConfigCategory)
    (hauth : verify_bot_authorization bot_token authorization = true)
    (hcat : category_key ∈ MASTERY_CATEGORIES)
    (hfound : find_category_by_key config category_key = some c)
    (hmax : 0 < c.maxLevels) :
    (next_level ≠ get_mastery mastery user_id category_key + 1 →
      approve_mastery_application bot_token authorization config users mastery user_id
        category_key next_level = ⟨some 400, mastery, false⟩) ∧
    (next_level = get_mastery mastery user_id category_key + 1 →
      (approve_mastery_application bot_token authorization config users mastery user_id
        category_key next_level).status = none ∧
      get_mastery (approve_mastery_application bot_token authorization config users mastery
        user_id category_key next_level).mastery user_id category_key =
        get_mastery mastery user_id category_key + 1 ∧
      (∀ cat2, cat2 ≠ category_key →
        get_mastery (approve_mastery_application bot_token authorization config users mastery
          user_id category_key next_level).mastery user_id cat2 =
          get_mastery mastery user_id cat2) ∧
      (∀ uid2, uid2 ≠ user_id → ∀ cat2,
        get_mastery (approve_mastery_application bot_token authorization config users mastery
          user_id category_key next_level).mastery uid2 cat2 =
          get_mastery mastery uid2 cat2) ∧
      ((approve_mastery_application bot_token authorization config users mastery user_id
        category_key next_level).granted_trophy = true ↔
        c.maxLevels ≤ get_mastery mastery user_id category_key + 1)) := by
  obtain ⟨t2, hset, hget, hother, husers⟩ :=
    set_mastery_spec users mastery user_id category_key
      (get_mastery mastery user_id category_key + 1) hcat
  have happ : ∀ hnl : next_level = get_mastery mastery user_id category_key + 1,
      approve_mastery_application bot_token authorization config users mastery user_id
        category_key next_level =
        (if get_mastery mastery user_id category_key + 1 ≥ c.maxLevels ∧ c.maxLevels > 0
          then ⟨none, t2, true⟩ else ⟨none, t2, false⟩) := by
    intro hnl
    subst hnl
    simp [approve_mastery_application, hauth, hfound, hset]
  constructor
  · intro hne
    simp [approve_mastery_application, hauth, hne]
  · intro hnl
    rw [happ hnl]
    by_cases hge : get_mastery mastery user_id category_key + 1 ≥ c.maxLevels
    · rw [if_pos ⟨hge, hmax⟩]
      exact ⟨rfl, hget, hother, husers, by simpa using hge⟩
    · rw [if_neg (by intro h; exact hge h.1)]
      refine ⟨rfl, hget, hother, husers, ?_⟩
      constructor
      · intro h; exact absurd h (by simp)
      · intro h; exact absurd h hge

/-- C4 witness: user 9 at solo level 0 is approved for next_level 1 with
maxLevels 1: no error is raised, the solo column becomes 1, hellmode stays
0, user 8 stays 0, and the solo trophy is granted; next_level 2 instead is
rejected with 400. -/
theorem approve_mastery_level_step_witness :
    (approve_mastery_application ("t".data) (some ("t".data)) ⟨[⟨("solo".data), 1⟩]⟩ [] []
      9 ("solo".data) 2 = ⟨some 400, [], false⟩) ∧
    (approve_mastery_application ("t".data) (some ("t".data)) ⟨[⟨("solo".data), 1⟩]⟩ [] []
      9 ("solo".data) 1).status = none ∧
    get_mastery (approve_mastery_application ("t".data) (some ("t".data))
      ⟨[⟨("solo".data), 1⟩]⟩ [] [] 9 ("solo".data) 1).mastery 9 ("solo".data) = 1 ∧
    ((approve_mastery_application ("t".data) (some ("t".data)) ⟨[⟨("solo".data), 1⟩]⟩ [] []
      9 ("solo".data) 1).granted_trophy = true ↔
      (⟨("solo".data), 1⟩ : MasteryConfigCategory).maxLevels ≤
        get_mastery [] 9 ("solo".data) + 1) :=
  ⟨(approve_mastery_level_step ("t".data) (some ("t".data)) ⟨[⟨("solo".data), 1⟩]⟩ [] []
      9 ("solo".data) 2 ⟨("solo".data), 1⟩ (by decide) (by decide) (by decide)
      (by decide)).1 (by decide),
   ((approve_mastery_level_step ("t".data) (some ("t".data)) ⟨[⟨("solo".data), 1⟩]⟩ [] []
      9 ("solo".data) 1 ⟨("solo".data), 1⟩ (by decide) (by decide) (by decide)
      (by decide)).2 (by decide)).1,
   ((approve_mastery_level_step ("t".data) (some ("t".data)) ⟨[⟨("solo".data), 1⟩]⟩ [] []
      9 ("solo".data) 1 ⟨("solo".data), 1⟩ (by decide) (by decide) (by decide)
      (by decide)).2 (by decide)).2.1,
   ((approve_mastery_level_step ("t".data) (some ("t".data)) ⟨[⟨("solo".data), 1⟩]⟩ [] []
      9 ("solo".data) 1 ⟨("solo".data), 1⟩ (by decide) (by decide) (by decide)
      (by decide)).2 (by decide)).2.2.2.2⟩

/- ==================== C7: profile save round-trip ==================== -/

/- A separator-free string is one whole split chunk. -/
theorem split_char_single (sep : Char) (x : Str) (h : sep ∉ x) :
    split_char sep x = [x] := by
  induction x with
  | nil => rfl
  | cons c cs ih =>
    have hc : ¬ c = sep := fun e => h (by rw [e]; exact List.mem_cons_self _ _)
    have hcs : sep ∉ cs := fun m => h (List.mem_cons_of_mem _ m)
    simp only [split_char, if_neg hc, ih hcs]

/- Splitting a separator-free chunk followed by the separator peels it off. -/
theorem split_char_append (sep : Char) (x t : Str) (h : sep ∉ x) :
    split_char sep (x ++ sep :: t) = x :: split_char sep t := by
  induction x with
  | nil => simp [split_char]
  | cons c cs ih =>
    have hc : ¬ c = sep := fun e => h (by rw [e]; exact List.mem_cons_self _ _)
    have hcs : sep ∉ cs := fun m => h (List.mem_cons_of_mem _ m)
    show split_char sep (c :: (cs ++ sep :: t)) = (c :: cs) :: split_char sep t
    simp only [split_char, if_neg hc, ih hcs]

/- The comma join of nonempty, trimmed, comma-free items parses back to the
   same items. -/
theorem parse_join (items : List Str)
    (h : ∀ e ∈ items, e ≠ [] ∧ strip e = e ∧ ',' ∉ e) :
    parse_comma_separated_list (join_comma_separated_list items) = items := by
  induction items with
  | nil => rfl
  | cons x rest ih =>
    obtain ⟨hx0, hxs, hxc⟩ := h x (List.mem_cons_self _ _)
    cases rest with
    | nil =>
      unfold join_comma_separated_list parse_comma_separated_list
      rw [if_neg hx0, split_char_single ',' x hxc]
      simp [hxs, hx0]
    | cons y rest2 =>
      have hrest := ih fun e he => h e (List.mem_cons_of_mem _ he)
      have hy0 : y ≠ [] := (h y (List.mem_cons_of_mem _ (List.mem_cons_self _ _))).1
      have hjoin : join_comma_separated_list (y :: rest2) ≠ [] := by
        cases rest2 with
        | nil => exact hy0
        | cons z rest3 =>
          unfold join_comma_separated_list
          intro hemp
          exact hy0 (List.append_eq_nil.mp hemp).1
      have htail : ((split_char ',' (join_comma_separated_list (y :: rest2))).map
          strip).filter (fun item => item ≠ []) = y :: rest2 := by
        unfold parse_comma_separated_list at hrest
        rw [if_neg hjoin] at hrest
        exact hrest
      show parse_comma_separated_list
        (x ++ ',' :: join_comma_separated_list (y :: rest2)) = _
      unfold parse_comma_separated_list
      rw [if_neg (fun hemp => hx0 (List.append_eq_nil.mp hemp).1),
        split_char_append ',' x _ hxc]
      simp only [List.map_cons, List.filter_cons, hxs, htail]
      simp [hx0]

/-- C7 counterexample: saving a profile whose platforms list is the single
element a-comma-b passes validation, but profile.get returns the two
platforms a and b — the list is stored comma-joined and split back apart on
read, so the submitted list does not round-trip. -/
theorem profile_roundtrip_comma_cex :
    (match save_profile [] 7 ("Jin".data) ("jinsakai".data) [("a,b".data)] [] [] [] with
     | Except.ok users2 => (get_user users2 7).map fun p => p.platforms
     | Except.error _ => none) = some [("a".data), ("b".data)] ∧
    [("a".data), ("b".data)] ≠ [("a,b".data)] := by
  decide

/-- C7 (amended): the profile save round-trips for list elements that are
non-empty, carry no surrounding whitespace and contain no comma: after a
successful profile.save, profile.get returns the stripped real_name and
psn_id and exactly the submitted platforms, modes, goals and difficulties.
Elements with a comma are split apart on read and blank elements are
dropped, because the lists are stored comma-joined. -/
theorem profile_roundtrip (users : List UserRow) (user_id : Nat) (real_name psn_id : Str)
    (platforms modes goals difficulties : List Str)
    (hname : ¬ strip real_name = [])
    (hpsn : validate_psn_format psn_id = true)
    (hp : ∀ e ∈ platforms, e ≠ [] ∧ strip e = e ∧ ',' ∉ e)
    (hm : ∀ e ∈ modes, e ≠ [] ∧ strip e = e ∧ ',' ∉ e)
    (hg : ∀ e ∈ goals, e ≠ [] ∧ strip e = e ∧ ',' ∉ e)
    (hd : ∀ e ∈ difficulties, e ≠ [] ∧ strip e = e ∧ ',' ∉ e) :
    ∃ users2, save_profile users user_id real_name psn_id platforms modes goals
        difficulties = .ok users2 ∧
      ∃ p, get_user users2 user_id = some p ∧
        p.real_name = strip real_name ∧ p.psn_id = strip psn_id ∧
        p.platforms = platforms ∧ p.modes = modes ∧ p.goals = goals ∧
        p.difficulties = difficulties := by
  unfold save_profile
  rw [if_neg hname, if_neg (by rw [hpsn]; simp)]
  refine ⟨_, rfl, ?_⟩
  unfold upsert_user
  by_cases hany : (users.any fun u => u.user_id == user_id) = true
  · rw [if_pos hany]
    obtain ⟨u0, hu0⟩ : ∃ u0, users.find? (fun u => u.user_id == user_id) = some u0 := by
      cases hf : users.find? (fun u => u.user_id == user_id) with
      | none =>
        obtain ⟨u, hu, hkey⟩ := List.any_eq_true.mp hany
        exact absurd (List.find?_eq_none.mp hf u hu) (by simp [hkey])
      | some u0 => exact ⟨u0, rfl⟩
    unfold get_user
    rw [find?_map_update users (fun u => u.user_id == user_id)
      (fun u =>
        { u with
          real_name := strip real_name
          psn_id := strip psn_id
          platforms := join_comma_separated_list platforms
          modes := join_comma_separated_list modes
          goals := join_comma_separated_list goals
          difficulties := join_comma_separated_list difficulties
          avatar_url :=
            match (none : Option Str) with
            | some a => some a
            | none => u.avatar_url })
      (fun a => rfl), hu0]
    exact ⟨_, rfl, rfl, rfl, parse_join platforms hp, parse_join modes hm,
      parse_join goals hg, parse_join difficulties hd⟩
  · rw [if_neg hany]
    have hanyf : (users.any fun u => u.user_id == user_id) = false := by
      revert hany
      cases users.any fun u => u.user_id == user_id <;> simp
    have hfnone : users.find? (fun u => u.user_id == user_id) = none :=
      List.find?_eq_none.mpr fun a ha => by simp [List.any_eq_false.mp hanyf a ha]
    unfold get_user
    rw [find?_append_of_none users _ _ hfnone, List.find?_cons_of_pos _ (by simp)]
    exact ⟨_, rfl, rfl, rfl, parse_join platforms hp, parse_join modes hm,
      parse_join goals hg, parse_join difficulties hd⟩

/-- C7 witness: a fresh profile saved with a padded real name, a valid PSN
id and simple one-word lists reads back stripped and with the same lists. -/
theorem profile_roundtrip_witness :
    ∃ users2, save_profile [] 3 (" Jin ".data) ("jin_sakai".data) [("ps5".data)]
        [("coop".data)] [] [] = .ok users2 ∧
      ∃ p, get_user users2 3 = some p ∧
        p.real_name = strip (" Jin ".data) ∧ p.psn_id = strip ("jin_sakai".data) ∧
        p.platforms = [("ps5".data)] ∧ p.modes = [("coop".data)] ∧ p.goals = [] ∧
        p.difficulties = [] :=
  profile_roundtrip [] 3 (" Jin ".data) ("jin_sakai".data) [("ps5".data)]
    [("coop".data)] [] [] (by decide) (by decide) (by decide) (by decide) (by decide)
    (by decide)

/- ==================== C10: streak counting ==================== -/

/- mark_quest_done decomposed: for a valid quest type it writes the row
   computed from the read state and reports the trophy decision. -/
theorem mark_quest_done_eq (table : List QuestRow) (uid : Nat) (psn : Str) (qt : Str)
    (now : Nat) (hqt : qt ∈ valid_quest_types) :
    mark_quest_done table uid psn qt now =
      ⟨upsert_quest_row table
        (mark_written_row (quest_row_state table uid psn) uid psn qt now),
       true,
       mark_granted (quest_row_state table uid psn) qt⟩ := by
  have hcont : valid_quest_types.contains qt = true := List.elem_eq_true_of_mem hqt
  unfold mark_quest_done quest_row_state mark_written_row mark_granted
  rw [if_neg (by rw [hcont]; simp)]
  cases hfind : find_quest_row table uid with
  | none =>
    rcases hsf : set_quest_flag qt false false false false with ⟨a, b, c, d⟩
    simp only [hsf, completed_sum]
    by_cases hC : b2n a + b2n b + b2n c + b2n d = 4 ∧
        b2n false + b2n false + b2n false + b2n false < 4
    · rw [if_pos hC, if_pos hC, if_pos hC]
    · rw [if_neg hC, if_neg hC, if_neg hC]
  | some r =>
    rcases hsf : set_quest_flag qt r.hellmode r.story r.survival r.trials with ⟨a, b, c, d⟩
    simp only [hsf, completed_sum]
    by_cases hC : b2n a + b2n b + b2n c + b2n d = 4 ∧
        b2n r.hellmode + b2n r.story + b2n r.survival + b2n r.trials < 4
    · rw [if_pos hC, if_pos hC, if_pos hC]
    · rw [if_neg hC, if_neg hC, if_neg hC]

/- The written row always carries the key of the marked user. -/
theorem mark_written_row_user_id (r0 : QuestRow) (uid : Nat) (psn : Str) (qt : Str)
    (now : Nat) : (mark_written_row r0 uid psn qt now).user_id = uid := by
  simp only [mark_written_row]
  split_ifs <;> rfl

/- Replacing every matching row makes the search return the new row. -/
theorem find?_map_replace {α : Type} (l : List α) (p : α → Bool) (row : α)
    (hrow : p row = true) :
    (l.map fun a => if p a then row else a).find? p = (l.find? p).map fun _ => row := by
  induction l with
  | nil => rfl
  | cons a as ih =>
    by_cases hp : p a = true
    · simp only [List.map_cons, if_pos hp]
      rw [List.find?_cons_of_pos _ hrow, List.find?_cons_of_pos _ hp]
      rfl
    · simp only [List.map_cons, if_neg hp]
      rw [List.find?_cons_of_neg _ (by simp [hp]), List.find?_cons_of_neg _ (by simp [hp]),
        ih]

/- Looking the user up after the INSERT OR REPLACE finds the written row. -/
theorem find_quest_row_upsert (table : List QuestRow) (row : QuestRow) :
    find_quest_row (upsert_quest_row table row) row.user_id = some row := by
  unfold find_quest_row upsert_quest_row
  by_cases hany : (table.any fun r => r.user_id == row.user_id) = true
  · rw [if_pos hany, find?_map_replace table _ row (by simp)]
    obtain ⟨c0, hc0⟩ : ∃ c0, table.find? (fun r => r.user_id == row.user_id) = some c0 := by
      cases hf : table.find? (fun r => r.user_id == row.user_id) with
      | none =>
        obtain ⟨r, hr, hkey⟩ := List.any_eq_true.mp hany
        exact absurd (List.find?_eq_none.mp hf r hr) (by simp [hkey])
      | some c0 => exact ⟨c0, rfl⟩
    rw [hc0]
    rfl
  · rw [if_neg hany]
    have hanyf : (table.any fun r => r.user_id == row.user_id) = false := by
      revert hany
      cases table.any fun r => r.user_id == row.user_id <;> simp
    rw [find?_append_of_none table _ _ (List.find?_eq_none.mpr fun a ha => by
        simp [List.any_eq_false.mp hanyf a ha]),
      List.find?_cons_of_pos _ (by simp)]

/- The streak counter of the written row. -/
theorem mark_written_row_all_completed (r0 : QuestRow) (uid : Nat) (psn : Str) (qt : Str)
    (now : Nat) :
    (mark_written_row r0 uid psn qt now).all_completed =
      if sum_after_mark r0 qt = 4 ∧ completed_sum r0 < 4 then r0.all_completed + 1
      else r0.all_completed := by
  simp only [mark_written_row, sum_after_mark]
  split_ifs <;> rfl

/- The first-completion stamp of the written row. -/
theorem mark_written_row_first_completed (r0 : QuestRow) (uid : Nat) (psn : Str)
    (qt : Str) (now : Nat) :
    (mark_written_row r0 uid psn qt now).first_completed_at =
      if (sum_after_mark r0 qt = 4 ∧ completed_sum r0 < 4) ∧ r0.all_completed + 1 = 1
      then some now else r0.first_completed_at := by
  simp only [mark_written_row, sum_after_mark]
  split_ifs <;> first | rfl | tauto

/- The trophy decision of the written row. -/
theorem mark_granted_iff (r0 : QuestRow) (qt : Str) :
    mark_granted r0 qt = true ↔
      (sum_after_mark r0 qt = 4 ∧ completed_sum r0 < 4) ∧ r0.all_completed + 1 = 5 := by
  simp only [mark_granted, sum_after_mark]
  split_ifs with h1 <;> simp [h1]

/- Re-marking an already-set flag leaves the flag sum unchanged. -/
theorem sum_after_mark_of_flag (r0 : QuestRow) (qt : Str) (hqt : qt ∈ valid_quest_types)
    (hflag : get_quest_flag r0 qt = true) :
    sum_after_mark r0 qt = completed_sum r0 := by
  simp only [valid_quest_types, List.mem_cons, List.not_mem_nil, or_false] at hqt
  rcases hqt with rfl | rfl | rfl | rfl
  · rw [show get_quest_flag r0 ("hellmode".data) = r0.hellmode from rfl] at hflag
    rw [show sum_after_mark r0 ("hellmode".data) =
      b2n true + b2n r0.story + b2n r0.survival + b2n r0.trials from rfl]
    unfold completed_sum
    rw [hflag]
  · rw [show get_quest_flag r0 ("story".data) = r0.story from rfl] at hflag
    rw [show sum_after_mark r0 ("story".data) =
      b2n r0.hellmode + b2n true + b2n r0.survival + b2n r0.trials from rfl]
    unfold completed_sum
    rw [hflag]
  · rw [show get_quest_flag r0 ("survival".data) = r0.survival from rfl] at hflag
    rw [show sum_after_mark r0 ("survival".data) =
      b2n r0.hellmode + b2n r0.story + b2n true + b2n r0.trials from rfl]
    unfold completed_sum
    rw [hflag]
  · rw [show get_quest_flag r0 ("trials".data) = r0.trials from rfl] at hflag
    rw [show sum_after_mark r0 ("trials".data) =
      b2n r0.hellmode + b2n r0.story + b2n r0.survival + b2n true from rfl]
    unfold completed_sum
    rw [hflag]

/-- C10: for a valid quest type the call succeeds and all_completed is
incremented by exactly 1 precisely when the update turns the flag sum from
below four into four; re-marking an already-completed quest type never
changes all_completed; first_completed_at is stamped exactly when
all_completed first becomes 1; and the week-hero trophy is granted exactly
when all_completed reaches 5. -/
theorem mark_quest_done_streak (table : List QuestRow) (uid : Nat) (psn : Str) (qt : Str)
    (now : Nat) (hqt : qt ∈ valid_quest_types) :
    (mark_quest_done table uid psn qt now).ok = true ∧
    (find_quest_row (mark_quest_done table uid psn qt now).table uid).map
        (fun r => r.all_completed) =
      some (if sum_after_mark (quest_row_state table uid psn) qt = 4 ∧
               completed_sum (quest_row_state table uid psn) < 4 then
              (quest_row_state table uid psn).all_completed + 1
            else (quest_row_state table uid psn).all_completed) ∧
    (get_quest_flag (quest_row_state table uid psn) qt = true →
      (find_quest_row (mark_quest_done table uid psn qt now).table uid).map
          (fun r => r.all_completed) =
        some (quest_row_state table uid psn).all_completed) ∧
    (find_quest_row (mark_quest_done table uid psn qt now).table uid).map
        (fun r => r.first_completed_at) =
      some (if (sum_after_mark (quest_row_state table uid psn) qt = 4 ∧
                completed_sum (quest_row_state table uid psn) < 4) ∧
               (quest_row_state table uid psn).all_completed + 1 = 1 then
              some now
            else (quest_row_state table uid psn).first_completed_at) ∧
    ((mark_quest_done table uid psn qt now).granted_week_hero = true ↔
      (sum_after_mark (quest_row_state table uid psn) qt = 4 ∧
        completed_sum (quest_row_state table uid psn) < 4) ∧
      (quest_row_state table uid psn).all_completed + 1 = 5) := by
  rw [mark_quest_done_eq table uid psn qt now hqt]
  have hfind : find_quest_row
      (upsert_quest_row table
        (mark_written_row (quest_row_state table uid psn) uid psn qt now)) uid =
      some (mark_written_row (quest_row_state table uid psn) uid psn qt now) := by
    have h := find_quest_row_upsert table
      (mark_written_row (quest_row_state table uid psn) uid psn qt now)
    rw [mark_written_row_user_id] at h
    exact h
  refine ⟨rfl, ?_, ?_, ?_, ?_⟩
  · rw [hfind, Option.map_some', mark_written_row_all_completed]
  · intro hflag
    rw [hfind, Option.map_some', mark_written_row_all_completed,
      sum_after_mark_of_flag _ qt hqt hflag,
      if_neg (by omega)]
  · rw [hfind, Option.map_some', mark_written_row_first_completed]
  · exact mark_granted_iff _ qt

/-- C10 witness: a user with hellmode, story and survival done marks
trials; the call succeeds and the counter transitions. -/
theorem mark_quest_done_streak_witness :
    (mark_quest_done [(⟨4, ("p".data), true, true, true, false, 0, none⟩ : QuestRow)] 4
      ("p".data) ("trials".data) 99).ok = true :=
  (mark_quest_done_streak [⟨4, ("p".data), true, true, true, false, 0, none⟩] 4 ("p".data)
    ("trials".data) 99 (by decide)).1

end MiniApp
